import Mathlib

/-!
# Around — post ingestion and geo search (`main.go`)

A shallow embedding of the two HTTP handlers of `main.go`, `handlerPost` and
`handlerSearch`, together with the spam filter `initSpamSet` / `containsSpam`
they share, followed by the properties established about them.

Conventions of the embedding:

* A Go `string` holding valid UTF-8 is a Lean `String` (a sequence of Unicode
  code points).  Every string the filter sees comes out of `encoding/json`,
  which replaces invalid UTF-8 by U+FFFD, so this loses nothing.
* A `float64` is carried as its bit pattern; the handlers never compute with
  one, they only pass it on.
* The libraries the handlers call (JSON decoding, `strconv.ParseFloat`,
  `uuid.New`, the elastic client) are the environment `Env`: one record of the
  answers they give during a request.  What the handlers do to the outside is
  recorded in `World` (standard output, the calls issued to the elastic client,
  the documents held by the index) and in the `ResponseWriter`.
* `panic(err)` ends a handler at once; `Result.panicked` holds the error.
* `main` (index bootstrap and routing) takes no part in a request and is not
  embedded.
-/

namespace Around

/-! ## Data model (main.go 16-32) -/

/-- A Go float64, represented by its IEEE-754 binary64 bit pattern. -/
structure Float64 where
  bits : Nat
deriving DecidableEq, Repr

/-- The float is neither an infinity nor a NaN: its 11-bit exponent field is
not all ones. -/
def Float64.isFinite (f : Float64) : Bool :=
  (f.bits / 2 ^ 52) % 2 ^ 11 != 2047

/-- The type Location of main.go, with JSON field names lat and lon. -/
structure Location where
  Lat : Float64
  Lon : Float64
deriving DecidableEq, Repr

/-- The type Post of main.go, with JSON field names user, message, location. -/
structure Post where
  User : String
  Message : String
  Location : Location
deriving DecidableEq, Repr

def INDEX : String := "around"

def TYPE : String := "post"

def DISTANCE : String := "200km"

def ES_URL : String := "http://35.192.229.163:9200"

/-! ## Go library functions used by the spam filter -/

/-- Go unicode.IsSpace: the Latin-1 white space characters are listed one by
one, the others are the White_Space range table above Latin-1. -/
def IsSpace (r : Char) : Bool :=
  if r.toNat ≤ 0xFF then
    r.toNat = 0x09 || r.toNat = 0x0A || r.toNat = 0x0B || r.toNat = 0x0C || r.toNat = 0x0D
      || r.toNat = 0x20 || r.toNat = 0x85 || r.toNat = 0xA0
  else
    r.toNat = 0x1680 || (0x2000 ≤ r.toNat && r.toNat ≤ 0x200A) || r.toNat = 0x2028
      || r.toNat = 0x2029 || r.toNat = 0x202F || r.toNat = 0x205F || r.toNat = 0x3000

/-- Go strings.FieldsFunc, scanning the runes left to right.  The first
argument is the field being read (none between fields): a rune satisfying f
closes the open field, any other rune opens a field or extends the open one,
and a field still open at the end of the input is closed there. -/
def FieldsFunc (f : Char → Bool) : Option (List Char) → List Char → List String
  | none, [] => []
  | some cur, [] => [String.mk cur]
  | none, r :: rest =>
    if f r then FieldsFunc f none rest else FieldsFunc f (some [r]) rest
  | some cur, r :: rest =>
    if f r then String.mk cur :: FieldsFunc f none rest
    else FieldsFunc f (some (cur ++ [r])) rest

/-- Go strings.Fields: the maximal runs of non-space runes of s, in order. -/
def Fields (s : String) : List String :=
  FieldsFunc IsSpace none s.data

/-- A Go map[string]bool: the entries, at most one for each key. -/
abbrev MapStringBool := List (String × Bool)

namespace MapStringBool

/-- Go make(map[string]bool). -/
def make : MapStringBool := []

/-- Go m[k] = v: the entry for k is added, replacing an older one. -/
def assign (m : MapStringBool) (k : String) (v : Bool) : MapStringBool :=
  (k, v) :: m.filter (fun e => e.1 != k)

/-- Go v, found := m[k]: the value stored for k and true, or the zero value
and false when k is not a key. -/
def index (m : MapStringBool) (k : String) : Bool × Bool :=
  match m.lookup k with
  | some v => (v, true)
  | none => (false, false)

/-- The keys of the map. -/
def keys (m : MapStringBool) : List String :=
  m.map Prod.fst

end MapStringBool

/-! ## The spam filter (main.go 194-211) -/

/-- main.go 194-200. -/
def initSpamSet : MapStringBool :=
  let m := MapStringBool.make
  let m := m.assign "shit" true
  let m := m.assign "fuck" true
  let m := m.assign "bitch" true
  m

/-- The loop of containsSpam, main.go 204-210: the first token found in the
set returns true, running out of tokens returns false. -/
def containsSpamLoop (set : MapStringBool) : List String → Bool
  | [] => false
  | token :: rest =>
    let found := (set.index token).2
    if found then true else containsSpamLoop set rest

/-- main.go 202-211. -/
def containsSpam (p : Post) (set : MapStringBool) : Bool :=
  let tokens := Fields p.Message
  containsSpamLoop set tokens

/-! ## The outside world of a handler -/

/-- The elastic GeoDistanceQuery as the handler fills it: field name,
distance, latitude and longitude. -/
structure GeoDistanceQuery where
  name : String
  distance : String
  lat : Float64
  lon : Float64
deriving DecidableEq, Repr

/-- Go elastic.NewGeoDistanceQuery(name). -/
def NewGeoDistanceQuery (name : String) : GeoDistanceQuery :=
  ⟨name, "", ⟨0⟩, ⟨0⟩⟩

def GeoDistanceQuery.Distance (q : GeoDistanceQuery) (distance : String) : GeoDistanceQuery :=
  { q with distance := distance }

def GeoDistanceQuery.Lat (q : GeoDistanceQuery) (lat : Float64) : GeoDistanceQuery :=
  { q with lat := lat }

def GeoDistanceQuery.Lon (q : GeoDistanceQuery) (lon : Float64) : GeoDistanceQuery :=
  { q with lon := lon }

/-- A call issued to the elastic client library, with the arguments the
handler gave it. -/
inductive Call where
  /-- Go elastic.NewClient(elastic.SetURL(url), elastic.SetSniff(sniff)) -/
  | NewClient (url : String) (sniff : Bool)
  /-- Go client.Index().Index(index).Type(typ).Id(id).BodyJson(body).Refresh(refresh).Do() -/
  | Index (index typ id : String) (body : Post) (refresh : Bool)
  /-- Go client.Search().Index(index).Query(q).Pretty(pretty).Do() -/
  | Search (index : String) (q : GeoDistanceQuery) (pretty : Bool)
deriving DecidableEq, Repr

/-- Whether the call is a document write. -/
def Call.isWrite : Call → Bool
  | Call.Index _ _ _ _ _ => true
  | _ => false

/-- Whether the call is a query. -/
def Call.isQuery : Call → Bool
  | Call.Search _ _ _ => true
  | _ => false

/-- A document held by the store. -/
structure Doc where
  index : String
  typ : String
  id : String
  body : Post
deriving DecidableEq, Repr

/-- The documents held by the store, oldest first. -/
abbrev Store := List Doc

/-- The store after it accepted an index request: the document takes the
place of an older one with the same index, type and id. -/
def Store.put (s : Store) (d : Doc) : Store :=
  s.filter (fun e => !(e.index == d.index && e.typ == d.typ && e.id == d.id)) ++ [d]

/-- The elastic SearchResult, as far as the handler reads it: the time taken,
the value of TotalHits(), and for each hit what decoding its source into a
Post gives (none when it does not decode). -/
structure SearchResult where
  TookInMillis : Int
  TotalHits : Int
  Hits : List (Option Post)

/-- Go searchResult.Each(reflect.TypeOf(typ)): the hits that decode, in the
order of the result; a hit that does not decode is left out. -/
def SearchResult.Each (r : SearchResult) : List Post :=
  r.Hits.filterMap id

/-- What the libraries answer during one request. -/
structure Env where
  /-- Go json.NewDecoder(body).Decode(&p): the post, or the error -/
  Decode : String → Except String Post
  /-- Go strconv.ParseFloat(s, 64): the value and the error (none for nil) -/
  ParseFloat : String → Float64 × Option String
  /-- Go uuid.New() -/
  uuidNew : String
  /-- The error of elastic.NewClient (none for nil) -/
  NewClient : Option String
  /-- The error of the index request (none for nil) -/
  IndexDo : Option String
  /-- The answer of the search request, for the store it runs on -/
  SearchDo : Store → String → GeoDistanceQuery → Except String SearchResult
  /-- The text fmt prints for a float64 under the verb %f -/
  fmtF : Float64 → String
  /-- The text fmt prints for a float64 under the verb %v -/
  fmtV : Float64 → String

/-- What a handler acts on outside the response: the texts printed to standard
output, the calls issued to the elastic client, the documents in the store. -/
structure World where
  stdout : List String
  calls : List Call
  store : Store

def World.print (world : World) (s : String) : World :=
  { world with stdout := world.stdout ++ [s] }

def World.call (world : World) (c : Call) : World :=
  { world with calls := world.calls ++ [c] }

/-- A JSON document. -/
inductive JSON where
  | null
  | str (s : String)
  | num (f : Float64)
  | arr (items : List JSON)
  | obj (fields : List (String × JSON))

/-- One write to the response body. -/
inductive Chunk where
  | text (s : String)
  | json (v : JSON)

/-- The http.ResponseWriter: the header map and the writes to the body. -/
structure ResponseWriter where
  header : List (String × String)
  body : List Chunk

/-- Go w.Header().Set(key, value). -/
def ResponseWriter.HeaderSet (w : ResponseWriter) (key value : String) : ResponseWriter :=
  { w with header := w.header.filter (fun e => e.1 != key) ++ [(key, value)] }

/-- Go w.Write(b), and fmt.Fprintf(w, ...) with the formatted text. -/
def ResponseWriter.Write (w : ResponseWriter) (c : Chunk) : ResponseWriter :=
  { w with body := w.body ++ [c] }

/-- The http.Request, as far as the handlers read it: the body, and the
key=value pairs of the URL query in the order they are written. -/
structure Request where
  Body : String
  Query : List (String × String)

/-- Go r.URL.Query().Get(key): the first value of the key, the empty string
when the key has none. -/
def Request.Get (r : Request) (key : String) : String :=
  match r.Query.lookup key with
  | some v => v
  | none => ""

/-- Where a handler ends: the world and the response writer it leaves, and the
error it panicked with (none when it returned). -/
structure Result where
  world : World
  w : ResponseWriter
  panicked : Option String

/-! ## json.Marshal of the result list -/

/-- A Go slice of Post: none is the nil slice. -/
abbrev PostSlice := Option (List Post)

/-- Go append(ps, p). -/
def PostSlice.append : PostSlice → Post → PostSlice
  | none, p => some [p]
  | some l, p => some (l ++ [p])

/-- The elements of the slice. -/
def PostSlice.toList : PostSlice → List Post
  | none => []
  | some l => l

/-- The JSON object of a Post under the field tags of main.go 16-25. -/
def postObject (p : Post) : JSON :=
  JSON.obj [("user", JSON.str p.User), ("message", JSON.str p.Message),
    ("location", JSON.obj [("lat", JSON.num p.Location.Lat), ("lon", JSON.num p.Location.Lon)])]

/-- Go json.Marshal of one Post: an object with the fields user, message and
location, the location an object with the fields lat and lon.  A float that is
an infinity or a NaN is an UnsupportedValueError. -/
def marshalPost (p : Post) : Except String JSON :=
  if p.Location.Lat.isFinite && p.Location.Lon.isFinite then
    Except.ok (postObject p)
  else
    Except.error "json: unsupported value"

/-- Go json.Marshal of the elements of a slice, in order. -/
def marshalPosts : List Post → Except String (List JSON)
  | [] => Except.ok []
  | p :: rest =>
    match marshalPost p with
    | Except.error err => Except.error err
    | Except.ok j =>
      match marshalPosts rest with
      | Except.error err => Except.error err
      | Except.ok js => Except.ok (j :: js)

/-- Go json.Marshal of a []Post: the nil slice encodes as null, any other
slice as the array of its elements. -/
def jsonMarshal : PostSlice → Except String JSON
  | none => Except.ok JSON.null
  | some l =>
    match marshalPosts l with
    | Except.error err => Except.error err
    | Except.ok js => Except.ok (JSON.arr js)

/-! ## The handlers (main.go 85-192) -/

/-- main.go 104-123. Returns the world it leaves and the error it panicked
with. -/
def saveToES (env : Env) (p : Post) (id : String) (world : World) : World × Option String :=
  let world := world.call (Call.NewClient ES_URL false)
  match env.NewClient with
  | some err => (world, some err)
  | none =>
    let world := world.call (Call.Index INDEX TYPE id p true)
    match env.IndexDo with
    | some err => (world, some err)
    | none =>
      let world := { world with store := world.store.put ⟨INDEX, TYPE, id, p⟩ }
      (world.print ("Post is saved to index: " ++ p.Message ++ "\n"), none)

/-- main.go 85-102. -/
def handlerPost (env : Env) (w : ResponseWriter) (r : Request) (world : World) : Result :=
  let world := world.print "Received one post request.\n"
  match env.Decode r.Body with
  | Except.error err => ⟨world, w, some err⟩
  | Except.ok p =>
    let w := w.Write (Chunk.text ("Post received: " ++ p.Message ++ "\n"))
    let spamSet := initSpamSet
    if !containsSpam p spamSet then
      let id := env.uuidNew
      let saved := saveToES env p id world
      ⟨saved.1, w, saved.2⟩
    else
      ⟨world.print ("Post " ++ p.Message ++ " contains spam words, not allowed to post!"), w, none⟩

/-- The loop of handlerSearch, main.go 172-182, over the items returned by
Each: every item is printed, then appended to ps unless it contains spam. -/
def searchLoop (env : Env) : List Post → World → PostSlice → World × PostSlice
  | [], world, ps => (world, ps)
  | p :: rest, world, ps =>
    let world := world.print ("Post by " ++ p.User ++ ": " ++ p.Message ++ " at lat "
      ++ env.fmtV p.Location.Lat ++ " and lon " ++ env.fmtV p.Location.Lon ++ "\n")
    let spamSet := initSpamSet
    if !containsSpam p spamSet then
      searchLoop env rest world (ps.append p)
    else
      searchLoop env rest
        (world.print ("Post " ++ p.Message ++ " contains spam words, not allowed to display!")) ps

/-- main.go 125-192. -/
def handlerSearch (env : Env) (w : ResponseWriter) (r : Request) (world : World) : Result :=
  let world := world.print "Received one request for search\n"
  let lat := (env.ParseFloat (r.Get "lat")).1
  let lon := (env.ParseFloat (r.Get "lon")).1
  let ran := if r.Get "range" != "" then r.Get "range" ++ "km" else DISTANCE
  let world := world.print ("Search received: " ++ env.fmtF lat ++ " " ++ env.fmtF lon
    ++ " " ++ ran ++ "\n")
  let world := world.call (Call.NewClient ES_URL false)
  match env.NewClient with
  | some err => ⟨world, w, some err⟩
  | none =>
    let q := NewGeoDistanceQuery "location"
    let q := ((q.Distance ran).Lat lat).Lon lon
    let world := world.call (Call.Search INDEX q true)
    match env.SearchDo world.store INDEX q with
    | Except.error err => ⟨world, w, some err⟩
    | Except.ok searchResult =>
      let world := world.print ("Query took " ++ toString searchResult.TookInMillis
        ++ " milliseconds\n")
      let world := world.print ("Found a total of " ++ toString searchResult.TotalHits
        ++ " post\n")
      let looped := searchLoop env searchResult.Each world none
      match jsonMarshal looped.2 with
      | Except.error err => ⟨looped.1, w, some err⟩
      | Except.ok js =>
        let w := w.HeaderSet "Content-Type" "application/json"
        let w := w.HeaderSet "Access-Control-Allow-Origin" "*"
        let w := w.Write (Chunk.json js)
        ⟨looped.1, w, none⟩


/-! ## Names used in the statements -/

/-- The query handlerSearch builds from a request, main.go 127-134 and
147-148, written out: field "location", the range parameter with "km" appended
or "200km" when the parameter is empty, and the values ParseFloat returns for
the parameters lat and lon. -/
def queryOf (env : Env) (r : Request) : GeoDistanceQuery :=
  ⟨"location", if r.Get "range" != "" then r.Get "range" ++ "km" else "200km",
    (env.ParseFloat (r.Get "lat")).1, (env.ParseFloat (r.Get "lon")).1⟩

/-- The post passes the spam check both handlers run. -/
def isClean (p : Post) : Bool :=
  !containsSpam p initSpamSet

/-- Both coordinates of the post are finite. -/
def Post.isFinite (p : Post) : Bool :=
  p.Location.Lat.isFinite && p.Location.Lon.isFinite

/-! ## Sample requests and environments -/

/-- The body of the POST request shown in main.go 75-82, with the coordinates
of the concrete scenario. -/
def johnBody : String :=
  "\x7b\"user\":\"john\",\"message\":\"hello world\",\"location\":\x7b\"lat\":37,\"lon\":-122\x7d\x7d"

/-- The post johnBody decodes into: 37 and -122 as float64 bit patterns. -/
def johnPost : Post :=
  ⟨"john", "hello world", ⟨⟨0x4042800000000000⟩, ⟨0xC05E800000000000⟩⟩⟩

def spamBody : String :=
  "\x7b\"user\":\"john\",\"message\":\"what the fuck\",\"location\":\x7b\"lat\":37,\"lon\":-122\x7d\x7d"

def spamPost : Post :=
  ⟨"john", "what the fuck", ⟨⟨0x4042800000000000⟩, ⟨0xC05E800000000000⟩⟩⟩

/-- A body that is not JSON. -/
def brokenBody : String := "user=john"

/-- An environment in which the store is reachable and answers a search with
every document it holds.  Decode and ParseFloat answer as the libraries do on
the inputs used below (johnBody, spamBody, "37", "-122", "0"); any other
input is reported as malformed. -/
def envUp : Env where
  Decode := fun body =>
    if body = johnBody then Except.ok johnPost
    else if body = spamBody then Except.ok spamPost
    else Except.error "invalid character"
  ParseFloat := fun s =>
    if s = "37" then (⟨0x4042800000000000⟩, none)
    else if s = "-122" then (⟨0xC05E800000000000⟩, none)
    else if s = "0" then (⟨0⟩, none)
    else (⟨0⟩, some ("strconv.ParseFloat: parsing \"" ++ s ++ "\": invalid syntax"))
  uuidNew := "6ba7b810-9dad-11d1-80b4-00c04fd430c8"
  NewClient := none
  IndexDo := none
  SearchDo := fun store _ _ => Except.ok ⟨3, store.length, store.map (fun d => some d.body)⟩
  fmtF := fun f =>
    if f.bits = 0x4042800000000000 then "37.000000"
    else if f.bits = 0xC05E800000000000 then "-122.000000" else "0.000000"
  fmtV := fun f =>
    if f.bits = 0x4042800000000000 then "37"
    else if f.bits = 0xC05E800000000000 then "-122" else "0"

/-- The environment envUp with the store unreachable: elastic.NewClient
returns an error. -/
def envDown : Env :=
  { envUp with NewClient := some "no Elasticsearch node available" }

/-- The environment envUp on a store that answers every search with five
hits, the third of which does not decode into a Post. -/
def envMixed : Env :=
  { envUp with
    SearchDo := fun _ _ _ =>
      Except.ok ⟨3, 5, [some spamPost, some johnPost, none, some spamPost, some johnPost]⟩ }

/-- Nothing printed, no call issued, an empty store. -/
def emptyWorld : World := ⟨[], [], []⟩

/-- A store holding the post of john. -/
def johnWorld : World := ⟨[], [], [⟨INDEX, TYPE, "6ba7b810-9dad-11d1-80b4-00c04fd430c8", johnPost⟩]⟩

/-- A store holding a post that contains spam. -/
def spamWorld : World := ⟨[], [], [⟨INDEX, TYPE, "6ba7b810-9dad-11d1-80b4-00c04fd430c8", spamPost⟩]⟩

/-- A store holding, oldest first, a spam post, the post of john, and both
once more under other identifiers. -/
def mixedWorld : World :=
  ⟨[], [], [⟨INDEX, TYPE, "id-1", spamPost⟩, ⟨INDEX, TYPE, "id-2", johnPost⟩,
    ⟨INDEX, TYPE, "id-3", spamPost⟩, ⟨INDEX, TYPE, "id-4", johnPost⟩]⟩

def freshWriter : ResponseWriter := ⟨[], []⟩

/-- GET /search?lat=37&lon=-122 -/
def nearRequest : Request := ⟨"", [("lat", "37"), ("lon", "-122")]⟩

/-- GET /search?lat=37&lon=-122&range=200 -/
def near200Request : Request := ⟨"", [("lat", "37"), ("lon", "-122"), ("range", "200")]⟩

/-- GET /search?lat=37&lon=-122&range=50 -/
def near50Request : Request := ⟨"", [("lat", "37"), ("lon", "-122"), ("range", "50")]⟩

/-- GET /search?lat=abc&lon=0 -/
def badLatRequest : Request := ⟨"", [("lat", "abc"), ("lon", "0")]⟩


/-! ## strings.Fields: what the tokens are -/

theorem FieldsFunc_tokens (f : Char → Bool) (l : List Char) (acc : Option (List Char))
    (hacc : ∀ cur, acc = some cur → cur ≠ [] ∧ ∀ c ∈ cur, f c = false) :
    ∀ t ∈ FieldsFunc f acc l, t.data ≠ [] ∧ ∀ c ∈ t.data, f c = false := by
  induction l generalizing acc with
  | nil =>
    cases acc with
    | none => simp [FieldsFunc]
    | some cur =>
      intro t ht
      simp only [FieldsFunc, List.mem_singleton] at ht
      subst ht
      exact hacc cur rfl
  | cons r rest ih =>
    cases acc with
    | none =>
      by_cases hr : f r = true
      · simp only [FieldsFunc, hr, if_true]
        exact ih none (by simp)
      · simp only [Bool.not_eq_true] at hr
        simp only [FieldsFunc, hr, Bool.false_eq_true, if_false]
        exact ih (some [r]) (by simp [hr])
    | some cur =>
      by_cases hr : f r = true
      · simp only [FieldsFunc, hr, if_true]
        intro t ht
        rcases List.mem_cons.1 ht with h | h
        · subst h; exact hacc cur rfl
        · exact ih none (by simp) t h
      · simp only [Bool.not_eq_true] at hr
        simp only [FieldsFunc, hr, Bool.false_eq_true, if_false]
        refine ih (some (cur ++ [r])) ?_
        intro cur' hcur'
        simp only [Option.some.injEq] at hcur'
        subst hcur'
        refine ⟨by simp, ?_⟩
        intro c hc
        rcases List.mem_append.1 hc with h | h
        · exact (hacc cur rfl).2 c h
        · simp only [List.mem_singleton] at h; subst h; exact hr

theorem FieldsFunc_join (f : Char → Bool) (l : List Char) (acc : Option (List Char)) :
    ((FieldsFunc f acc l).map String.data).flatten
      = acc.getD [] ++ l.filter (fun c => !f c) := by
  induction l generalizing acc with
  | nil => cases acc <;> simp [FieldsFunc]
  | cons r rest ih =>
    cases acc with
    | none =>
      by_cases hr : f r = true
      · simp [FieldsFunc, hr, ih]
      · simp only [Bool.not_eq_true] at hr
        simp [FieldsFunc, hr, ih]
    | some cur =>
      by_cases hr : f r = true
      · simp [FieldsFunc, hr, ih]
      · simp only [Bool.not_eq_true] at hr
        simp [FieldsFunc, hr, ih]

/-- Every token of strings.Fields is non-empty and free of white space, and
the tokens together are the non-space runes of the string, in order. -/
theorem Fields_tokens (s : String) :
    (∀ t ∈ Fields s, t.data ≠ [] ∧ ∀ c ∈ t.data, IsSpace c = false) ∧
      ((Fields s).map String.data).flatten = s.data.filter (fun c => !IsSpace c) :=
  ⟨FieldsFunc_tokens IsSpace s.data none (by simp), by simp [Fields, FieldsFunc_join]⟩
theorem FieldsFunc_some_append (f : Char → Bool) (t rest cur : List Char)
    (ht : ∀ c ∈ t, f c = false) :
    FieldsFunc f (some cur) (t ++ rest) = FieldsFunc f (some (cur ++ t)) rest := by
  induction t generalizing cur with
  | nil => simp
  | cons c t ih =>
    have hc : f c = false := ht c (List.mem_cons_self c t)
    have := ih (cur ++ [c]) (fun d hd => ht d (List.mem_cons_of_mem c hd))
    simp only [List.cons_append, FieldsFunc, hc, Bool.false_eq_true, if_false]
    simpa using this

theorem FieldsFunc_none_append (f : Char → Bool) (t rest : List Char) (hne : t ≠ [])
    (ht : ∀ c ∈ t, f c = false) :
    FieldsFunc f none (t ++ rest) = FieldsFunc f (some t) rest := by
  cases t with
  | nil => exact absurd rfl hne
  | cons c t =>
    have hc : f c = false := ht c (List.mem_cons_self c t)
    have := FieldsFunc_some_append f t rest [c] (fun d hd => ht d (List.mem_cons_of_mem c hd))
    simp only [List.cons_append, FieldsFunc, hc, Bool.false_eq_true, if_false]
    simpa using this

/-- Tokens written one after the other with one separator rune between
neighbours are what FieldsFunc returns for the text. -/
theorem FieldsFunc_intercalate (f : Char → Bool) (sp : Char) (hsp : f sp = true)
    (ts : List (List Char)) (hts : ∀ t ∈ ts, t ≠ [] ∧ ∀ c ∈ t, f c = false) :
    FieldsFunc f none (List.intercalate [sp] ts) = ts.map String.mk := by
  induction ts with
  | nil => rfl
  | cons t rest ih =>
    have ht := hts t (List.mem_cons_self t rest)
    cases rest with
    | nil =>
      have h := FieldsFunc_none_append f t [] ht.1 ht.2
      simp only [List.append_nil] at h
      simp [List.intercalate, h, FieldsFunc]
    | cons t2 rest2 =>
      have hrest := ih (fun u hu => hts u (List.mem_cons_of_mem t hu))
      have hsplit : List.intercalate [sp] (t :: t2 :: rest2)
          = t ++ sp :: List.intercalate [sp] (t2 :: rest2) := by
        simp [List.intercalate, List.intersperse]
      rw [hsplit, FieldsFunc_none_append f t _ ht.1 ht.2]
      simp only [FieldsFunc, hsp, if_true, hrest, List.map_cons]

/-! ## The spam filter: properties -/

theorem MapStringBool.index_found_iff (m : MapStringBool) (k : String) :
    (m.index k).2 = true ↔ k ∈ m.keys := by
  induction m with
  | nil => simp [MapStringBool.index, MapStringBool.keys, List.lookup]
  | cons e rest ih =>
    obtain ⟨k', v⟩ := e
    by_cases hk : k = k'
    · subst hk
      simp [MapStringBool.index, MapStringBool.keys, List.lookup]
    · have hne : (k == k') = false := by simpa using hk
      have hstep : MapStringBool.index ((k', v) :: rest) k = MapStringBool.index rest k := by
        simp [MapStringBool.index, List.lookup, hne]
      rw [hstep, ih]
      simp [MapStringBool.keys, hk]

theorem containsSpamLoop_iff (set : MapStringBool) (tokens : List String) :
    containsSpamLoop set tokens = true ↔ ∃ token ∈ tokens, token ∈ set.keys := by
  induction tokens with
  | nil => simp [containsSpamLoop]
  | cons token rest ih =>
    by_cases hfound : (set.index token).2 = true
    · have hkey := (MapStringBool.index_found_iff set token).1 hfound
      simp [containsSpamLoop, hfound, hkey]
    · have hkey : token ∉ set.keys := fun h =>
        hfound ((MapStringBool.index_found_iff set token).2 h)
      simp [containsSpamLoop, hfound, hkey, ih]

theorem containsSpam_eq_false_iff (p : Post) (set : MapStringBool) :
    containsSpam p set = false ↔ ∀ token ∈ Fields p.Message, token ∉ set.keys := by
  rw [← Bool.not_eq_true, containsSpam, containsSpamLoop_iff]
  simp

/-- C1. containsSpam(p, set) is true exactly when one of the tokens that
strings.Fields cuts out of p.Message is a key of set: whole tokens are compared
for equality with the keys, nothing else is looked at. -/
theorem containsSpam_iff_token_is_key (p : Post) (set : MapStringBool) :
    containsSpam p set = true ↔ ∃ token ∈ Fields p.Message, token ∈ set.keys := by
  unfold containsSpam
  exact containsSpamLoop_iff set (Fields p.Message)

/-- C7. A message none of whose whitespace-delimited tokens is a lexicon entry
is not spam, whatever lexicon words its tokens contain as substrings; and the
message "fucking great" is not spam under the lexicon holding only "fuck". -/
theorem containsSpam_substring_not_spam (p : Post) (set : MapStringBool)
    (hnone : ∀ token ∈ Fields p.Message, token ∉ set.keys) :
    containsSpam p set = false ∧
      ∀ (user : String) (loc : Location),
        containsSpam ⟨user, "fucking great", loc⟩ (MapStringBool.make.assign "fuck" true)
          = false := by
  refine ⟨(containsSpam_eq_false_iff p set).2 hnone, ?_⟩
  intro user loc
  show containsSpamLoop (MapStringBool.make.assign "fuck" true) (Fields "fucking great") = false
  decide

/-- Witness for C7: the message "fucking great, bitches" holds the lexicon
words "fuck" and "bitch" inside larger tokens only, and is not spam under the
lexicon of initSpamSet. -/
theorem containsSpam_substring_not_spam_witness :
    Fields "fucking great, bitches" = ["fucking", "great,", "bitches"] ∧
    containsSpam ⟨"john", "fucking great, bitches", ⟨⟨0⟩, ⟨0⟩⟩⟩ initSpamSet = false :=
  ⟨by decide,
   (containsSpam_substring_not_spam ⟨"john", "fucking great, bitches", ⟨⟨0⟩, ⟨0⟩⟩⟩ initSpamSet
      (by decide)).1⟩


/-! ## handlerPost: properties -/

/-- C2. When the decoded post holds a token of the lexicon of initSpamSet,
handlerPost returns without having called saveToES: no call at all is issued
to the elastic client (saveToES opens with one), and the store is the store
the request found. -/
theorem handlerPost_spam_no_persistence (env : Env) (w : ResponseWriter) (r : Request)
    (world : World) (p : Post) (hdec : env.Decode r.Body = Except.ok p)
    (hspam : ∃ token ∈ Fields p.Message, token ∈ initSpamSet.keys) :
    (handlerPost env w r world).world.calls = world.calls ∧
      (handlerPost env w r world).world.store = world.store ∧
      (handlerPost env w r world).panicked = none := by
  have hs : containsSpam p initSpamSet = true :=
    (containsSpamLoop_iff initSpamSet (Fields p.Message)).2 hspam
  simp [handlerPost, hdec, hs, World.print]

/-- Witness for C2: the post "what the fuck" decodes and holds the lexicon
token "fuck". -/
theorem handlerPost_spam_no_persistence_witness :
    (handlerPost envUp freshWriter ⟨spamBody, []⟩ johnWorld).world.calls = johnWorld.calls ∧
      (handlerPost envUp freshWriter ⟨spamBody, []⟩ johnWorld).world.store = johnWorld.store ∧
      (handlerPost envUp freshWriter ⟨spamBody, []⟩ johnWorld).panicked = none :=
  handlerPost_spam_no_persistence envUp freshWriter ⟨spamBody, []⟩ johnWorld spamPost
    (by rfl) ⟨"fuck", by decide, by decide⟩

/-- C10. For a body that decodes into the post p, what handlerPost writes to
the response is the one text "Post received: " followed by p.Message and a
newline, and it leaves the header alone; the statement holds whether or not
the message is spam, the response is written before the check. -/
theorem handlerPost_response_is_ack (env : Env) (w : ResponseWriter) (r : Request)
    (world : World) (p : Post) (hdec : env.Decode r.Body = Except.ok p) :
    (handlerPost env w r world).w.body
        = w.body ++ [Chunk.text ("Post received: " ++ p.Message ++ "\n")] ∧
      (handlerPost env w r world).w.header = w.header := by
  unfold handlerPost
  simp only [hdec]
  split <;> simp [ResponseWriter.Write]

/-- Witness for C10, on a post that is spam; the clean post gets the same form
of answer. -/
theorem handlerPost_response_is_ack_witness :
    ((handlerPost envUp freshWriter ⟨spamBody, []⟩ emptyWorld).w.body
        = freshWriter.body ++ [Chunk.text ("Post received: " ++ spamPost.Message ++ "\n")] ∧
      (handlerPost envUp freshWriter ⟨spamBody, []⟩ emptyWorld).w.header = freshWriter.header) ∧
    ((handlerPost envUp freshWriter ⟨johnBody, []⟩ emptyWorld).w.body
        = freshWriter.body ++ [Chunk.text ("Post received: " ++ johnPost.Message ++ "\n")] ∧
      (handlerPost envUp freshWriter ⟨johnBody, []⟩ emptyWorld).w.header = freshWriter.header) :=
  ⟨handlerPost_response_is_ack envUp freshWriter ⟨spamBody, []⟩ emptyWorld spamPost (by rfl),
   handlerPost_response_is_ack envUp freshWriter ⟨johnBody, []⟩ emptyWorld johnPost (by rfl)⟩

/-- C3, as the code has it. For a body that decodes into a post p without a
lexicon token, and a store client that elastic.NewClient constructs without
error, the calls handlerPost issues are the construction of the client
followed by one write, to index "around", type "post", under the identifier
uuid.New() returned, with p as the document and refresh true; when the store
accepts the write, the store holds that document afterwards. -/
theorem handlerPost_clean_one_write (env : Env) (w : ResponseWriter) (r : Request)
    (world : World) (p : Post) (hdec : env.Decode r.Body = Except.ok p)
    (hclean : ∀ token ∈ Fields p.Message, token ∉ initSpamSet.keys)
    (hclient : env.NewClient = none) :
    (handlerPost env w r world).world.calls
        = world.calls ++ [Call.NewClient ES_URL false,
            Call.Index "around" "post" env.uuidNew p true] ∧
      ((handlerPost env w r world).world.calls.drop world.calls.length).filter Call.isWrite
        = [Call.Index "around" "post" env.uuidNew p true] ∧
      (env.IndexDo = none →
        (handlerPost env w r world).world.store
          = world.store.put ⟨"around", "post", env.uuidNew, p⟩) := by
  have hs : containsSpam p initSpamSet = false := (containsSpam_eq_false_iff p initSpamSet).2 hclean
  have hcalls : (handlerPost env w r world).world.calls
        = world.calls ++ [Call.NewClient ES_URL false,
            Call.Index "around" "post" env.uuidNew p true] := by
    cases hidx : env.IndexDo <;>
      simp [handlerPost, hdec, hs, saveToES, hclient, hidx, World.print, World.call, INDEX, TYPE]
  refine ⟨hcalls, ?_, ?_⟩
  · rw [hcalls]
    simp [Call.isWrite]
  · intro hidx
    simp [handlerPost, hdec, hs, saveToES, hclient, hidx, World.print, World.call, INDEX, TYPE]

/-- Witness for C3: the post of john on a reachable store. -/
theorem handlerPost_clean_one_write_witness :
    (handlerPost envUp freshWriter ⟨johnBody, []⟩ emptyWorld).world.calls
        = emptyWorld.calls ++ [Call.NewClient ES_URL false,
            Call.Index "around" "post" envUp.uuidNew johnPost true] ∧
      ((handlerPost envUp freshWriter ⟨johnBody, []⟩ emptyWorld).world.calls.drop
          emptyWorld.calls.length).filter Call.isWrite
        = [Call.Index "around" "post" envUp.uuidNew johnPost true] ∧
      (envUp.IndexDo = none →
        (handlerPost envUp freshWriter ⟨johnBody, []⟩ emptyWorld).world.store
          = emptyWorld.store.put ⟨"around", "post", envUp.uuidNew, johnPost⟩) :=
  handlerPost_clean_one_write envUp freshWriter ⟨johnBody, []⟩ emptyWorld johnPost
    (by rfl) (by decide) (by rfl)

/-- C3 fails as stated: the body of john decodes, its message holds no lexicon
token, and with the store unreachable handlerPost panics in saveToES after
elastic.NewClient, having issued no write. -/
theorem handlerPost_clean_store_down_no_write :
    envDown.Decode johnBody = Except.ok johnPost ∧
      (∀ token ∈ Fields johnPost.Message, token ∉ initSpamSet.keys) ∧
      (handlerPost envDown freshWriter ⟨johnBody, []⟩ emptyWorld).world.calls.filter Call.isWrite
        = [] ∧
      (handlerPost envDown freshWriter ⟨johnBody, []⟩ emptyWorld).world.calls
        = [Call.NewClient ES_URL false] ∧
      (handlerPost envDown freshWriter ⟨johnBody, []⟩ emptyWorld).panicked
        = some "no Elasticsearch node available" :=
  ⟨by rfl, by decide, by decide, by decide, by decide⟩


/-! ## handlerSearch: properties -/

theorem searchLoop_calls_store (env : Env) (items : List Post) (world : World) (ps : PostSlice) :
    (searchLoop env items world ps).1.calls = world.calls ∧
      (searchLoop env items world ps).1.store = world.store := by
  induction items generalizing world ps with
  | nil => simp [searchLoop]
  | cons p rest ih =>
    unfold searchLoop
    by_cases hs : containsSpam p initSpamSet = true
    · simp only [hs, Bool.not_true, Bool.false_eq_true, if_false]
      rw [(ih _ _).1, (ih _ _).2]
      simp [World.print]
    · simp only [Bool.not_eq_true] at hs
      simp only [hs, Bool.not_false, if_true]
      rw [(ih _ _).1, (ih _ _).2]
      simp [World.print]

theorem searchLoop_slice (env : Env) (items : List Post) (world : World) (ps : PostSlice) :
    (searchLoop env items world ps).2
      = if items.filter isClean = [] then ps else some (ps.toList ++ items.filter isClean) := by
  induction items generalizing world ps with
  | nil => simp [searchLoop]
  | cons p rest ih =>
    unfold searchLoop
    by_cases hs : containsSpam p initSpamSet = true
    · have hc : isClean p = false := by simp [isClean, hs]
      simp only [hs, Bool.not_true, Bool.false_eq_true, if_false]
      rw [ih]
      simp [List.filter_cons, hc]
    · simp only [Bool.not_eq_true] at hs
      have hc : isClean p = true := by simp [isClean, hs]
      simp only [hs, Bool.not_false, if_true]
      rw [ih]
      cases ps <;> simp [List.filter_cons, hc, PostSlice.append, PostSlice.toList]

/-- The slice handlerSearch hands to json.Marshal for the decoded hits
`items`: nil when no item is clean, the clean items in order otherwise. -/
theorem searchLoop_from_nil (env : Env) (items : List Post) (world : World) :
    (searchLoop env items world none).2
      = if items.filter isClean = [] then none else some (items.filter isClean) := by
  rw [searchLoop_slice]
  simp [PostSlice.toList]

theorem handlerSearch_of_hits (env : Env) (w : ResponseWriter) (r : Request) (world : World)
    (sr : SearchResult) (hclient : env.NewClient = none)
    (hsearch : env.SearchDo world.store INDEX (queryOf env r) = Except.ok sr) :
    (handlerSearch env w r world).world.calls
        = world.calls ++ [Call.NewClient ES_URL false, Call.Search INDEX (queryOf env r) true] ∧
      (handlerSearch env w r world).world.store = world.store ∧
      (handlerSearch env w r world).w
        = (match jsonMarshal
              (if sr.Each.filter isClean = [] then none else some (sr.Each.filter isClean)) with
            | Except.error _ => w
            | Except.ok js =>
              ((w.HeaderSet "Content-Type" "application/json").HeaderSet
                "Access-Control-Allow-Origin" "*").Write (Chunk.json js)) ∧
      (handlerSearch env w r world).panicked
        = (match jsonMarshal
              (if sr.Each.filter isClean = [] then none else some (sr.Each.filter isClean)) with
            | Except.error err => some err
            | Except.ok _ => none) := by
  have hsearch1 : env.SearchDo world.store INDEX
      ((((NewGeoDistanceQuery "location").Distance
        (if r.Get "range" != "" then r.Get "range" ++ "km" else DISTANCE)).Lat
          (env.ParseFloat (r.Get "lat")).1).Lon (env.ParseFloat (r.Get "lon")).1)
      = Except.ok sr := hsearch
  have hq : ((((NewGeoDistanceQuery "location").Distance
        (if r.Get "range" != "" then r.Get "range" ++ "km" else DISTANCE)).Lat
          (env.ParseFloat (r.Get "lat")).1).Lon (env.ParseFloat (r.Get "lon")).1)
      = queryOf env r := rfl
  unfold handlerSearch
  simp only [hclient, World.print, World.call, hsearch1, searchLoop_from_nil]
  cases hm : jsonMarshal
      (if sr.Each.filter isClean = [] then none else some (sr.Each.filter isClean)) with
  | error err =>
    simp only [(searchLoop_calls_store _ _ _ _).1, (searchLoop_calls_store _ _ _ _).2, hq]
    simp
  | ok js =>
    simp only [(searchLoop_calls_store _ _ _ _).1, (searchLoop_calls_store _ _ _ _).2, hq]
    simp


theorem marshalPosts_of_finite (l : List Post) (hfin : ∀ p ∈ l, p.isFinite = true) :
    marshalPosts l = Except.ok (l.map postObject) := by
  induction l with
  | nil => rfl
  | cons p rest ih =>
    have hp : (p.Location.Lat.isFinite && p.Location.Lon.isFinite) = true :=
      hfin p (List.mem_cons_self p rest)
    have hrest := ih (fun q hq => hfin q (List.mem_cons_of_mem p hq))
    simp [marshalPosts, marshalPost, hp, hrest]

theorem postObject_injective (p q : Post) (h : postObject p = postObject q) : p = q := by
  obtain ⟨pu, pm, ⟨plat, plon⟩⟩ := p
  obtain ⟨qu, qm, ⟨qlat, qlon⟩⟩ := q
  simp only [postObject, JSON.obj.injEq, List.cons.injEq, Prod.mk.injEq, JSON.str.injEq,
    JSON.num.injEq, true_and, and_true] at h
  obtain ⟨hu, hm, hlat, hlon⟩ := h
  subst hu hm hlat hlon
  rfl

/-- C4. When the store query succeeds, the slice handlerSearch hands to
json.Marshal holds exactly the decoded hits that are not spam under the
lexicon of initSpamSet, in the order of the store: it is the filtered list of
the hits, so it is a subsequence of them, a hit is in it exactly when it is
clean, and a clean hit occurs in it as often as among the hits. -/
theorem handlerSearch_serialises_clean_hits (env : Env) (w : ResponseWriter) (r : Request)
    (world : World) (sr : SearchResult) (hclient : env.NewClient = none)
    (hsearch : env.SearchDo world.store INDEX (queryOf env r) = Except.ok sr) :
    ∃ ps : PostSlice,
      ((handlerSearch env w r world).w
          = (match jsonMarshal ps with
              | Except.error _ => w
              | Except.ok js =>
                ((w.HeaderSet "Content-Type" "application/json").HeaderSet
                  "Access-Control-Allow-Origin" "*").Write (Chunk.json js)) ∧
        (handlerSearch env w r world).panicked
          = (match jsonMarshal ps with
              | Except.error err => some err
              | Except.ok _ => none)) ∧
      ps.toList = sr.Each.filter (fun p => !containsSpam p initSpamSet) ∧
      ps.toList.Sublist sr.Each ∧
      (∀ p ∈ sr.Each, p ∈ ps.toList ↔ containsSpam p initSpamSet = false) ∧
      (∀ p, containsSpam p initSpamSet = false → ps.toList.count p = sr.Each.count p) := by
  obtain ⟨_, _, hw, hp⟩ := handlerSearch_of_hits env w r world sr hclient hsearch
  refine ⟨if sr.Each.filter isClean = [] then none else some (sr.Each.filter isClean),
    ⟨hw, hp⟩, ?_⟩
  have hlist : PostSlice.toList
      (if sr.Each.filter isClean = [] then none else some (sr.Each.filter isClean))
      = sr.Each.filter (fun p => !containsSpam p initSpamSet) := by
    by_cases he : sr.Each.filter isClean = []
    · rw [if_pos he]
      exact he.symm
    · rw [if_neg he]
      rfl
  rw [hlist]
  refine ⟨rfl, List.filter_sublist _, ?_, ?_⟩
  · intro p hp
    simp [List.mem_filter, hp]
  · intro p hclean
    rw [List.count_filter]
    simp [hclean]

/-- Witness for C4: the store returns a spam post, the post of john, a hit
that does not decode, and the two posts once more. -/
theorem handlerSearch_serialises_clean_hits_witness :
    ∃ ps : PostSlice,
      ((handlerSearch envMixed freshWriter near50Request mixedWorld).w
          = (match jsonMarshal ps with
              | Except.error _ => freshWriter
              | Except.ok js =>
                ((freshWriter.HeaderSet "Content-Type" "application/json").HeaderSet
                  "Access-Control-Allow-Origin" "*").Write (Chunk.json js)) ∧
        (handlerSearch envMixed freshWriter near50Request mixedWorld).panicked
          = (match jsonMarshal ps with
              | Except.error err => some err
              | Except.ok _ => none)) ∧
      ps.toList = [spamPost, johnPost, spamPost, johnPost].filter
        (fun p => !containsSpam p initSpamSet) ∧
      ps.toList.Sublist [spamPost, johnPost, spamPost, johnPost] ∧
      (∀ p ∈ [spamPost, johnPost, spamPost, johnPost],
        p ∈ ps.toList ↔ containsSpam p initSpamSet = false) ∧
      (∀ p, containsSpam p initSpamSet = false →
        ps.toList.count p = [spamPost, johnPost, spamPost, johnPost].count p) :=
  handlerSearch_serialises_clean_hits envMixed freshWriter near50Request mixedWorld
    ⟨3, 5, [some spamPost, some johnPost, none, some spamPost, some johnPost]⟩ (by rfl) (by rfl)

/-- When the store query succeeds, a hit survives the filter and the hits
have finite coordinates, the body handlerSearch writes is the JSON array of
the objects of the clean hits, in order, under the content type
application/json. -/
theorem handlerSearch_body_is_array (env : Env) (w : ResponseWriter) (r : Request)
    (world : World) (sr : SearchResult) (hclient : env.NewClient = none)
    (hsearch : env.SearchDo world.store INDEX (queryOf env r) = Except.ok sr)
    (hfin : ∀ p ∈ sr.Each, p.isFinite = true)
    (hsome : sr.Each.filter isClean ≠ []) :
    (handlerSearch env w r world).w
        = ((w.HeaderSet "Content-Type" "application/json").HeaderSet
            "Access-Control-Allow-Origin" "*").Write
              (Chunk.json (JSON.arr ((sr.Each.filter isClean).map postObject))) ∧
      (handlerSearch env w r world).panicked = none := by
  obtain ⟨_, _, hw, hp⟩ := handlerSearch_of_hits env w r world sr hclient hsearch
  have hm : marshalPosts (sr.Each.filter isClean)
      = Except.ok ((sr.Each.filter isClean).map postObject) :=
    marshalPosts_of_finite _ (fun p hp => hfin p (List.mem_of_mem_filter hp))
  rw [hw, hp, if_neg hsome]
  simp [jsonMarshal, hm]

/-- When the store query succeeds and no hit survives the filter, the body
handlerSearch writes is the JSON value null. -/
theorem handlerSearch_body_null (env : Env) (w : ResponseWriter) (r : Request)
    (world : World) (sr : SearchResult) (hclient : env.NewClient = none)
    (hsearch : env.SearchDo world.store INDEX (queryOf env r) = Except.ok sr)
    (hnone : sr.Each.filter isClean = []) :
    (handlerSearch env w r world).w
        = ((w.HeaderSet "Content-Type" "application/json").HeaderSet
            "Access-Control-Allow-Origin" "*").Write (Chunk.json JSON.null) ∧
      (handlerSearch env w r world).panicked = none := by
  obtain ⟨_, _, hw, hp⟩ := handlerSearch_of_hits env w r world sr hclient hsearch
  rw [hw, hp, if_pos hnone]
  simp [jsonMarshal]

/-- C9 fails on the code when nothing is left to return. On a store without
documents, and on a store holding only a spam post, the query succeeds,
handlerSearch returns normally, and the body it writes is the JSON value null,
which is not an array. -/
theorem handlerSearch_empty_result_is_null :
    (handlerSearch envUp freshWriter nearRequest emptyWorld).w.body = [Chunk.json JSON.null] ∧
      (handlerSearch envUp freshWriter nearRequest emptyWorld).panicked = none ∧
      (handlerSearch envUp freshWriter nearRequest spamWorld).w.body = [Chunk.json JSON.null] ∧
      (handlerSearch envUp freshWriter nearRequest spamWorld).panicked = none ∧
      ∀ items : List JSON, JSON.null ≠ JSON.arr items :=
  ⟨by rfl, by rfl, by rfl, by rfl, fun _ h => JSON.noConfusion h⟩


theorem handlerPost_calls (env : Env) (w : ResponseWriter) (r : Request) (world : World)
    (p : Post) (hdec : env.Decode r.Body = Except.ok p) :
    (handlerPost env w r world).world.calls
      = world.calls ++
          (if containsSpam p initSpamSet = true then []
           else Call.NewClient ES_URL false ::
            (if env.NewClient = none then [Call.Index INDEX TYPE env.uuidNew p true] else [])) := by
  by_cases hs : containsSpam p initSpamSet = true
  · simp [handlerPost, hdec, hs, World.print]
  · simp only [Bool.not_eq_true] at hs
    cases hc : env.NewClient <;> cases hi : env.IndexDo <;>
      simp [handlerPost, hdec, hs, saveToES, hc, hi, World.print, World.call]

theorem handlerSearch_calls (env : Env) (w : ResponseWriter) (r : Request) (world : World) :
    (handlerSearch env w r world).world.calls
      = world.calls ++ Call.NewClient ES_URL false ::
          (if env.NewClient = none then [Call.Search INDEX (queryOf env r) true] else []) := by
  cases hc : env.NewClient with
  | some err => simp [handlerSearch, hc, World.print, World.call]
  | none =>
    cases hsr : env.SearchDo world.store INDEX (queryOf env r) with
    | ok sr => simpa using (handlerSearch_of_hits env w r world sr hc hsr).1
    | error err =>
      have hsr1 : env.SearchDo world.store INDEX
          ((((NewGeoDistanceQuery "location").Distance
            (if r.Get "range" != "" then r.Get "range" ++ "km" else DISTANCE)).Lat
              (env.ParseFloat (r.Get "lat")).1).Lon (env.ParseFloat (r.Get "lon")).1)
          = Except.error err := hsr
      have hq : ((((NewGeoDistanceQuery "location").Distance
            (if r.Get "range" != "" then r.Get "range" ++ "km" else DISTANCE)).Lat
              (env.ParseFloat (r.Get "lat")).1).Lon (env.ParseFloat (r.Get "lon")).1)
          = queryOf env r := rfl
      unfold handlerSearch
      simp only [hc, World.print, World.call, hsr1, hq, hsr]
      simp

theorem Request.Get_of_absent (r : Request) (key : String)
    (habsent : ∀ v, (key, v) ∉ r.Query) : r.Get key = "" := by
  have hl : ∀ l : List (String × String), (∀ v, (key, v) ∉ l) → l.lookup key = none := by
    intro l
    induction l with
    | nil => intro _; rfl
    | cons e rest ih =>
      intro h
      obtain ⟨k, v⟩ := e
      have hk : (key == k) = false := by
        have : key ≠ k := fun hkk => h v (by simp [hkk])
        simpa using this
      simp only [List.lookup, hk]
      exact ih (fun v' hv' => h v' (List.mem_cons_of_mem _ hv'))
  simp [Request.Get, hl r.Query habsent]


theorem handlerSearch_eq_of_same_params (env : Env) (w : ResponseWriter) (world : World)
    (r1 r2 : Request) (hlat : r1.Get "lat" = r2.Get "lat") (hlon : r1.Get "lon" = r2.Get "lon")
    (hran : r1.Get "range" = "" ∧ r2.Get "range" = "200") :
    handlerSearch env w r1 world = handlerSearch env w r2 world := by
  have hd1 : (if r1.Get "range" != "" then r1.Get "range" ++ "km" else DISTANCE) = "200km" := by
    rw [hran.1]; rfl
  have hd2 : (if r2.Get "range" != "" then r2.Get "range" ++ "km" else DISTANCE) = "200km" := by
    rw [hran.2]; rfl
  unfold handlerSearch
  simp only [hd1, hd2, hlat, hlon]

/-- C6. A search without a range parameter and a search with range=200 for the
same lat and lon run identically: both hand the store the geo-distance query
on field "location" with distance "200km" and the parsed lat and lon as
centre.  And a search whose range parameter is a non-empty v hands the store
the query with distance v followed by "km".  (The query is the one call after
the construction of the client, issued when that construction succeeds.) -/
theorem handlerSearch_range (env : Env) (w : ResponseWriter) (world : World)
    (r1 r2 r : Request) (v : String)
    (hno : ∀ x, ("range", x) ∉ r1.Query) (h200 : r2.Get "range" = "200")
    (hlat : r1.Get "lat" = r2.Get "lat") (hlon : r1.Get "lon" = r2.Get "lon")
    (hv : v ≠ "") (hr : r.Get "range" = v) :
    (handlerSearch env w r1 world = handlerSearch env w r2 world ∧
      (handlerSearch env w r1 world).world.calls
        = world.calls ++ Call.NewClient ES_URL false ::
            (if env.NewClient = none then
              [Call.Search "around"
                ⟨"location", "200km", (env.ParseFloat (r1.Get "lat")).1,
                  (env.ParseFloat (r1.Get "lon")).1⟩ true]
             else []) ∧
      (handlerSearch env w r2 world).world.calls
        = world.calls ++ Call.NewClient ES_URL false ::
            (if env.NewClient = none then
              [Call.Search "around"
                ⟨"location", "200km", (env.ParseFloat (r1.Get "lat")).1,
                  (env.ParseFloat (r1.Get "lon")).1⟩ true]
             else [])) ∧
      (handlerSearch env w r world).world.calls
        = world.calls ++ Call.NewClient ES_URL false ::
            (if env.NewClient = none then
              [Call.Search "around"
                ⟨"location", v ++ "km", (env.ParseFloat (r.Get "lat")).1,
                  (env.ParseFloat (r.Get "lon")).1⟩ true]
             else []) := by
  have h1 : r1.Get "range" = "" := Request.Get_of_absent r1 "range" hno
  have heq := handlerSearch_eq_of_same_params env w world r1 r2 hlat hlon ⟨h1, h200⟩
  have hq1 : queryOf env r1 = ⟨"location", "200km", (env.ParseFloat (r1.Get "lat")).1,
      (env.ParseFloat (r1.Get "lon")).1⟩ := by
    simp [queryOf, h1]
  have hq : queryOf env r = ⟨"location", v ++ "km", (env.ParseFloat (r.Get "lat")).1,
      (env.ParseFloat (r.Get "lon")).1⟩ := by
    simp [queryOf, hr, hv]
  refine ⟨⟨heq, ?_, ?_⟩, ?_⟩
  · rw [handlerSearch_calls, hq1]; rfl
  · rw [← heq, handlerSearch_calls, hq1]; rfl
  · rw [handlerSearch_calls, hq]; rfl

/-- Witness for C6: GET /search?lat=37&lon=-122 against the same request with
range=200, and the request with range=50. -/
theorem handlerSearch_range_witness :
    (handlerSearch envUp freshWriter nearRequest johnWorld
        = handlerSearch envUp freshWriter near200Request johnWorld ∧
      (handlerSearch envUp freshWriter nearRequest johnWorld).world.calls
        = johnWorld.calls ++ Call.NewClient ES_URL false ::
            (if envUp.NewClient = none then
              [Call.Search "around"
                ⟨"location", "200km", (envUp.ParseFloat (nearRequest.Get "lat")).1,
                  (envUp.ParseFloat (nearRequest.Get "lon")).1⟩ true]
             else []) ∧
      (handlerSearch envUp freshWriter near200Request johnWorld).world.calls
        = johnWorld.calls ++ Call.NewClient ES_URL false ::
            (if envUp.NewClient = none then
              [Call.Search "around"
                ⟨"location", "200km", (envUp.ParseFloat (nearRequest.Get "lat")).1,
                  (envUp.ParseFloat (nearRequest.Get "lon")).1⟩ true]
             else [])) ∧
      (handlerSearch envUp freshWriter near50Request johnWorld).world.calls
        = johnWorld.calls ++ Call.NewClient ES_URL false ::
            (if envUp.NewClient = none then
              [Call.Search "around"
                ⟨"location", "50" ++ "km", (envUp.ParseFloat (near50Request.Get "lat")).1,
                  (envUp.ParseFloat (near50Request.Get "lon")).1⟩ true]
             else []) :=
  handlerSearch_range envUp freshWriter johnWorld nearRequest near200Request near50Request "50"
    (by intro x; simp [nearRequest]) (by decide) (by decide) (by decide) (by decide) (by decide)

/-- C8, as the code has it. A POST body that does not decode makes handlerPost
panic with the decoder error before any call to the elastic client, leaving
store and response as they were.  handlerSearch has no such exit: for every
request it constructs the store client, and with the client it issues the
query, centred on whatever values ParseFloat returned for lat and lon; the
errors of ParseFloat are not looked at. -/
theorem malformed_input_handling (env : Env) (w : ResponseWriter) (r : Request)
    (world : World) (err : String) (rs : Request)
    (hbad : env.Decode r.Body = Except.error err) :
    ((handlerPost env w r world).world.calls = world.calls ∧
      (handlerPost env w r world).world.store = world.store ∧
      (handlerPost env w r world).w = w ∧
      (handlerPost env w r world).panicked = some err) ∧
    (handlerSearch env w rs world).world.calls
      = world.calls ++ Call.NewClient ES_URL false ::
          (if env.NewClient = none then
            [Call.Search "around"
              ⟨"location", if rs.Get "range" != "" then rs.Get "range" ++ "km" else "200km",
                (env.ParseFloat (rs.Get "lat")).1, (env.ParseFloat (rs.Get "lon")).1⟩ true]
           else []) := by
  refine ⟨?_, ?_⟩
  · simp [handlerPost, hbad, World.print]
  · rw [handlerSearch_calls]; rfl

/-- Witness for C8: a body that is not JSON, and GET /search?lat=abc&lon=0. -/
theorem malformed_input_handling_witness :
    ((handlerPost envUp freshWriter ⟨brokenBody, []⟩ johnWorld).world.calls = johnWorld.calls ∧
      (handlerPost envUp freshWriter ⟨brokenBody, []⟩ johnWorld).world.store = johnWorld.store ∧
      (handlerPost envUp freshWriter ⟨brokenBody, []⟩ johnWorld).w = freshWriter ∧
      (handlerPost envUp freshWriter ⟨brokenBody, []⟩ johnWorld).panicked
        = some "invalid character") ∧
    (handlerSearch envUp freshWriter badLatRequest johnWorld).world.calls
      = johnWorld.calls ++ Call.NewClient ES_URL false ::
          (if envUp.NewClient = none then
            [Call.Search "around"
              ⟨"location",
                if badLatRequest.Get "range" != "" then badLatRequest.Get "range" ++ "km"
                else "200km",
                (envUp.ParseFloat (badLatRequest.Get "lat")).1,
                (envUp.ParseFloat (badLatRequest.Get "lon")).1⟩ true]
           else []) :=
  malformed_input_handling envUp freshWriter ⟨brokenBody, []⟩ johnWorld "invalid character"
    badLatRequest (by rfl)

/-- C8 fails as stated for a search: in GET /search?lat=abc&lon=0 the
parameter lat does not parse as a float, ParseFloat returns 0 and an error, and
handlerSearch still constructs the store client and issues the query, centred
on latitude 0, and returns normally. -/
theorem handlerSearch_unparsable_lat_queries_store :
    envUp.ParseFloat (badLatRequest.Get "lat")
        = (⟨0⟩, some "strconv.ParseFloat: parsing \"abc\": invalid syntax") ∧
      (handlerSearch envUp freshWriter badLatRequest emptyWorld).world.calls
        = [Call.NewClient ES_URL false,
            Call.Search "around" ⟨"location", "200km", ⟨0⟩, ⟨0⟩⟩ true] ∧
      (handlerSearch envUp freshWriter badLatRequest emptyWorld).panicked = none :=
  ⟨by decide, by decide, by decide⟩


/-! ## The two spam checks -/

theorem handlerPost_issues_write_iff (env : Env) (w : ResponseWriter) (r : Request)
    (world : World) (p : Post) (hdec : env.Decode r.Body = Except.ok p)
    (hclient : env.NewClient = none) :
    Call.Index INDEX TYPE env.uuidNew p true
        ∈ (handlerPost env w r world).world.calls.drop world.calls.length
      ↔ containsSpam p initSpamSet = false := by
  rw [handlerPost_calls env w r world p hdec, List.drop_left]
  by_cases hs : containsSpam p initSpamSet = true
  · simp [hs]
  · simp only [Bool.not_eq_true] at hs
    simp [hs, hclient]

theorem handlerSearch_keeps_iff (env : Env) (w : ResponseWriter) (r : Request)
    (world : World) (sr : SearchResult) (p : Post) (hclient : env.NewClient = none)
    (hsearch : env.SearchDo world.store INDEX (queryOf env r) = Except.ok sr)
    (hhit : p ∈ sr.Each) (hfin : ∀ q ∈ sr.Each, q.isFinite = true) :
    (∃ items, (handlerSearch env w r world).w.body = w.body ++ [Chunk.json (JSON.arr items)] ∧
        postObject p ∈ items)
      ↔ containsSpam p initSpamSet = false := by
  by_cases hnone : sr.Each.filter isClean = []
  · have hbody := (handlerSearch_body_null env w r world sr hclient hsearch hnone).1
    have hp : containsSpam p initSpamSet = true := by
      have hnot : p ∉ sr.Each.filter isClean := by rw [hnone]; simp
      have : isClean p ≠ true := fun hc => hnot (List.mem_filter.2 ⟨hhit, hc⟩)
      simpa [isClean] using this
    constructor
    · rintro ⟨items, hb, _⟩
      rw [hbody] at hb
      simp [ResponseWriter.Write, ResponseWriter.HeaderSet] at hb
    · intro hc
      rw [hp] at hc
      exact absurd hc (by decide)
  · have hbody := (handlerSearch_body_is_array env w r world sr hclient hsearch hfin hnone).1
    constructor
    · rintro ⟨items, hb, hmem⟩
      rw [hbody] at hb
      simp only [ResponseWriter.Write, ResponseWriter.HeaderSet, List.append_cancel_left_eq,
        List.cons.injEq, Chunk.json.injEq, JSON.arr.injEq, and_true] at hb
      rw [← hb] at hmem
      obtain ⟨q, hq, hqp⟩ := List.mem_map.1 hmem
      have hqe : q = p := postObject_injective q p hqp
      subst hqe
      have := (List.mem_filter.1 hq).2
      simpa [isClean] using this
    · intro hc
      refine ⟨(sr.Each.filter isClean).map postObject, ?_, ?_⟩
      · rw [hbody]
        simp [ResponseWriter.Write, ResponseWriter.HeaderSet]
      · exact List.mem_map.2 ⟨p, List.mem_filter.2 ⟨hhit, by simp [isClean, hc]⟩, rfl⟩

theorem saveToES_calls (env : Env) (p : Post) (id : String) (world : World) :
    (saveToES env p id world).1.calls
      = world.calls ++ Call.NewClient ES_URL false ::
          (if env.NewClient = none then [Call.Index INDEX TYPE id p true] else []) := by
  cases hc : env.NewClient <;> cases hi : env.IndexDo <;>
    simp [saveToES, hc, hi, World.print, World.call]

/-- When elastic.NewClient returns an error, handlerPost on a clean post
panics with that error after the client call alone: no write is issued and
the store is as the request found it. -/
theorem handlerPost_clean_client_error (env : Env) (w : ResponseWriter) (r : Request)
    (world : World) (p : Post) (err : String) (hdec : env.Decode r.Body = Except.ok p)
    (hclean : ∀ token ∈ Fields p.Message, token ∉ initSpamSet.keys)
    (hclient : env.NewClient = some err) :
    (handlerPost env w r world).world.calls = world.calls ++ [Call.NewClient ES_URL false] ∧
      (handlerPost env w r world).world.store = world.store ∧
      (handlerPost env w r world).panicked = some err := by
  have hs : containsSpam p initSpamSet = false := (containsSpam_eq_false_iff p initSpamSet).2 hclean
  simp [handlerPost, hdec, hs, saveToES, hclient, World.print, World.call]

/-- For a decoded post p, handlerPost goes on as saveToES(&p, id) exactly when
its spam check finds p clean. -/
theorem handlerPost_enters_saveToES_iff (env : Env) (w : ResponseWriter) (r : Request)
    (world : World) (p : Post) (hdec : env.Decode r.Body = Except.ok p) :
    ((handlerPost env w r world).world
          = (saveToES env p env.uuidNew (world.print "Received one post request.\n")).1 ∧
        (handlerPost env w r world).panicked
          = (saveToES env p env.uuidNew (world.print "Received one post request.\n")).2)
      ↔ containsSpam p initSpamSet = false := by
  by_cases hs : containsSpam p initSpamSet = true
  · constructor
    · rintro ⟨hworld, _⟩
      have hcalls := congrArg World.calls hworld
      rw [handlerPost_calls env w r world p hdec, saveToES_calls] at hcalls
      simp [hs, World.print] at hcalls
    · intro hc
      rw [hs] at hc
      exact absurd hc (by decide)
  · simp only [Bool.not_eq_true] at hs
    constructor
    · intro _
      exact hs
    · intro _
      simp [handlerPost, hdec, hs]

/-- C5. The write-time and the read-time spam check agree. Take a post p that
handlerPost decodes, and a search whose query succeeds and returns p among its
decoded hits. Then handlerPost persists p, that is, goes on as
saveToES(&p, id), if and only if p is in the slice handlerSearch serialises as
its output; each of the two happens exactly when containsSpam(p,
initSpamSet()) is false, the one test both handlers run, so a post accepted at
write time is never classified as spam at read time. With the store client
constructed, persisting p is issuing the index request for p, and for hits
with finite coordinates the output is the JSON array that contains p. -/
theorem write_and_read_checks_agree (envP envS : Env) (wP wS : ResponseWriter)
    (rP rS : Request) (worldP worldS : World) (sr : SearchResult) (p : Post)
    (hdec : envP.Decode rP.Body = Except.ok p) (hclientS : envS.NewClient = none)
    (hsearch : envS.SearchDo worldS.store INDEX (queryOf envS rS) = Except.ok sr)
    (hhit : p ∈ sr.Each) :
    ∃ ps : PostSlice,
      ((handlerSearch envS wS rS worldS).w
          = (match jsonMarshal ps with
              | Except.error _ => wS
              | Except.ok js =>
                ((wS.HeaderSet "Content-Type" "application/json").HeaderSet
                  "Access-Control-Allow-Origin" "*").Write (Chunk.json js)) ∧
        (handlerSearch envS wS rS worldS).panicked
          = (match jsonMarshal ps with
              | Except.error err => some err
              | Except.ok _ => none)) ∧
      ps.toList = sr.Each.filter (fun q => !containsSpam q initSpamSet) ∧
      (((handlerPost envP wP rP worldP).world
            = (saveToES envP p envP.uuidNew (worldP.print "Received one post request.\n")).1 ∧
          (handlerPost envP wP rP worldP).panicked
            = (saveToES envP p envP.uuidNew (worldP.print "Received one post request.\n")).2)
        ↔ p ∈ ps.toList) ∧
      (((handlerPost envP wP rP worldP).world
            = (saveToES envP p envP.uuidNew (worldP.print "Received one post request.\n")).1 ∧
          (handlerPost envP wP rP worldP).panicked
            = (saveToES envP p envP.uuidNew (worldP.print "Received one post request.\n")).2)
        ↔ containsSpam p initSpamSet = false) ∧
      (p ∈ ps.toList ↔ containsSpam p initSpamSet = false) ∧
      (envP.NewClient = none →
        (Call.Index "around" "post" envP.uuidNew p true
            ∈ (handlerPost envP wP rP worldP).world.calls.drop worldP.calls.length
          ↔ p ∈ ps.toList)) ∧
      ((∀ q ∈ sr.Each, q.isFinite = true) →
        (p ∈ ps.toList ↔
          ∃ items,
            (handlerSearch envS wS rS worldS).w.body
              = wS.body ++ [Chunk.json (JSON.arr items)] ∧
            postObject p ∈ items)) := by
  obtain ⟨_, _, hw, hp⟩ := handlerSearch_of_hits envS wS rS worldS sr hclientS hsearch
  refine ⟨if sr.Each.filter isClean = [] then none else some (sr.Each.filter isClean),
    ⟨hw, hp⟩, ?_⟩
  have hlist : PostSlice.toList
      (if sr.Each.filter isClean = [] then none else some (sr.Each.filter isClean))
      = sr.Each.filter (fun q => !containsSpam q initSpamSet) := by
    by_cases he : sr.Each.filter isClean = []
    · rw [if_pos he]
      exact he.symm
    · rw [if_neg he]
      rfl
  rw [hlist]
  have hkept : p ∈ sr.Each.filter (fun q => !containsSpam q initSpamSet)
      ↔ containsSpam p initSpamSet = false := by
    simp [List.mem_filter, hhit]
  have hsave := handlerPost_enters_saveToES_iff envP wP rP worldP p hdec
  refine ⟨rfl, hsave.trans hkept.symm, hsave, hkept, ?_, ?_⟩
  · intro hclientP
    exact (handlerPost_issues_write_iff envP wP rP worldP p hdec hclientP).trans hkept.symm
  · intro hfin
    exact hkept.trans
      (handlerSearch_keeps_iff envS wS rS worldS sr p hclientS hsearch hhit hfin).symm

/-- Witness for C5: the post of john, written to an empty store and returned
by a search on a store that holds it. -/
theorem write_and_read_checks_agree_witness :
    containsSpam johnPost initSpamSet = false ∧
    ∃ ps : PostSlice,
      ((handlerSearch envUp freshWriter near50Request johnWorld).w
          = (match jsonMarshal ps with
              | Except.error _ => freshWriter
              | Except.ok js =>
                ((freshWriter.HeaderSet "Content-Type" "application/json").HeaderSet
                  "Access-Control-Allow-Origin" "*").Write (Chunk.json js)) ∧
        (handlerSearch envUp freshWriter near50Request johnWorld).panicked
          = (match jsonMarshal ps with
              | Except.error err => some err
              | Except.ok _ => none)) ∧
      ps.toList = [johnPost].filter (fun q => !containsSpam q initSpamSet) ∧
      (((handlerPost envUp freshWriter ⟨johnBody, []⟩ emptyWorld).world
            = (saveToES envUp johnPost envUp.uuidNew
                (emptyWorld.print "Received one post request.\n")).1 ∧
          (handlerPost envUp freshWriter ⟨johnBody, []⟩ emptyWorld).panicked
            = (saveToES envUp johnPost envUp.uuidNew
                (emptyWorld.print "Received one post request.\n")).2)
        ↔ johnPost ∈ ps.toList) ∧
      (((handlerPost envUp freshWriter ⟨johnBody, []⟩ emptyWorld).world
            = (saveToES envUp johnPost envUp.uuidNew
                (emptyWorld.print "Received one post request.\n")).1 ∧
          (handlerPost envUp freshWriter ⟨johnBody, []⟩ emptyWorld).panicked
            = (saveToES envUp johnPost envUp.uuidNew
                (emptyWorld.print "Received one post request.\n")).2)
        ↔ containsSpam johnPost initSpamSet = false) ∧
      (johnPost ∈ ps.toList ↔ containsSpam johnPost initSpamSet = false) ∧
      (envUp.NewClient = none →
        (Call.Index "around" "post" envUp.uuidNew johnPost true
            ∈ (handlerPost envUp freshWriter ⟨johnBody, []⟩ emptyWorld).world.calls.drop
                emptyWorld.calls.length
          ↔ johnPost ∈ ps.toList)) ∧
      ((∀ q ∈ [johnPost], q.isFinite = true) →
        (johnPost ∈ ps.toList ↔
          ∃ items,
            (handlerSearch envUp freshWriter near50Request johnWorld).w.body
              = freshWriter.body ++ [Chunk.json (JSON.arr items)] ∧
            postObject johnPost ∈ items)) :=
  ⟨by decide,
   write_and_read_checks_agree envUp envUp freshWriter freshWriter ⟨johnBody, []⟩ near50Request
    emptyWorld johnWorld ⟨3, 1, [some johnPost]⟩ johnPost (by rfl) (by rfl) (by rfl)
    (by decide)⟩

end Around
